import Mathlib

/-!
Verification development for the fantasy_v4 repository.

Part 1 embeds the tabular normalizer `load_fantasy_sheet`
(src/utils/excel_loader.py) as a pure function over an in-memory table.
Part 2 embeds the investment-scoring pipeline `get_investment_suggestions`
(src/database/mongodb.py) as list processing over stored card documents,
with the MongoDB aggregation operators given their documented semantics
($switch, $cond, $avg, $lte on a possibly missing field, stable $sort is
modelled with List.mergeSort, $stdDevPop is kept as an explicit parameter
because its square root leaves the rationals; every theorem holds for
every interpretation of that parameter, and concrete evaluations use
zero-variance inputs where the operator provably returns 0).
Numbers are modelled as rationals.
-/

namespace Fantasy

/-- Spreadsheet cell values as the loader sees them after pandas:
a present cell is either numeric or a string; a missing cell (NaN,
`pd.notna` false) is `Option.none` at the use sites. -/
inductive Cell where
  | num (q : ℚ)
  | str (s : String)
deriving DecidableEq, Repr

/-- Calendar date produced by header parsing (strptime result). -/
structure SimpleDate where
  year : Int
  month : Nat
  day : Nat
deriving DecidableEq, Repr

/-- A point in time, as `datetime.now()`: a date plus a time of day
measured in seconds (kept rational). Parsed header dates carry time 0. -/
structure Moment where
  year : Int
  month : Nat
  day : Nat
  tod : ℚ
deriving DecidableEq, Repr

/-- Python `datetime` comparison: lexicographic on year, month, day,
then time of day. -/
def momentLt (a b : Moment) : Bool :=
  if a.year = b.year then
    if a.month = b.month then
      if a.day = b.day then decide (a.tod < b.tod)
      else decide (a.day < b.day)
    else decide (a.month < b.month)
  else decide (a.year < b.year)

/-- A parsed date viewed as a `datetime` at midnight, as `strptime` and
`replace(year=...)` produce. -/
def dateAsMoment (d : SimpleDate) : Moment :=
  { year := d.year, month := d.month, day := d.day, tod := 0 }

/-- Year resolution for bare month-day headers
(src/utils/excel_loader.py lines 84-90): first try the current year;
if the resulting date is strictly after `now`, use the previous year. -/
def resolveMonthDay (now : Moment) (m d : Nat) : SimpleDate :=
  if momentLt now (dateAsMoment { year := now.year, month := m, day := d }) then
    { year := now.year - 1, month := m, day := d }
  else
    { year := now.year, month := m, day := d }

/-- Splits a character list on a separator, like Python `str.split`:
`n` separators yield `n + 1` (possibly empty) pieces. -/
def splitOnChar (c : Char) : List Char → List (List Char)
  | [] => [[]]
  | x :: xs =>
    if x = c then [] :: splitOnChar c xs
    else
      match splitOnChar c xs with
      | [] => [[x]]
      | h :: t => (x :: h) :: t

/-- Inverse of `splitOnChar`: interleaves the separator back. -/
def joinParts (c : Char) : List (List Char) → List Char
  | [] => []
  | [p] => p
  | p :: ps => p ++ c :: joinParts c ps

theorem splitOnChar_ne_nil (c : Char) (l : List Char) : splitOnChar c l ≠ [] := by
  induction l with
  | nil => simp [splitOnChar]
  | cons x xs ih =>
    simp only [splitOnChar]
    split
    · simp
    · cases h : splitOnChar c xs with
      | nil => exact absurd h ih
      | cons a t => simp

theorem joinParts_splitOnChar (c : Char) (l : List Char) :
    joinParts c (splitOnChar c l) = l := by
  induction l with
  | nil => simp [splitOnChar, joinParts]
  | cons x xs ih =>
    simp only [splitOnChar]
    split
    · rename_i hx
      subst hx
      cases h : splitOnChar x xs with
      | nil => exact absurd h (splitOnChar_ne_nil x xs)
      | cons a t =>
        rw [h] at ih
        simpa [joinParts] using ih
    · cases h : splitOnChar c xs with
      | nil => exact absurd h (splitOnChar_ne_nil c xs)
      | cons a t =>
        rw [h] at ih
        cases t with
        | nil => simpa [joinParts] using ih
        | cons b t2 => simpa [joinParts] using ih

theorem splitOnChar_of_not_mem (c : Char) (l : List Char) (h : c ∉ l) :
    splitOnChar c l = [l] := by
  induction l with
  | nil => simp [splitOnChar]
  | cons x xs ih =>
    simp only [List.mem_cons, not_or] at h
    simp only [splitOnChar]
    rw [if_neg (fun hxc => h.1 hxc.symm), ih h.2]

/-- Digit-string test used by the date format matchers. -/
def isDigits (l : List Char) : Bool :=
  !l.isEmpty && l.all Char.isDigit

/-- Decimal value of a digit string. -/
def natOfDigits (l : List Char) : Nat :=
  l.foldl (fun n c => 10 * n + (c.toNat - 48)) 0

/-- Gregorian leap-year rule, as Python `datetime` uses. -/
def isLeapYear (y : Int) : Bool :=
  decide (y % 4 = 0) && (decide (y % 100 ≠ 0) || decide (y % 400 = 0))

/-- Number of days in a month. -/
def daysInMonth (leap : Bool) (m : Nat) : Nat :=
  if m = 2 then (if leap then 29 else 28)
  else if m = 4 ∨ m = 6 ∨ m = 9 ∨ m = 11 then 30
  else 31

/-- Validity of a month/day pair in a year of the given leapness. -/
def validMonthDay (leap : Bool) (m d : Nat) : Bool :=
  decide (1 ≤ m) && decide (m ≤ 12) && decide (1 ≤ d) && decide (d ≤ daysInMonth leap m)

/-- Assembles a full date from year, month and day digit groups,
with the digit-count and calendar-validity checks that `strptime`
performs (`%Y` takes at most four digits, `%m` and `%d` at most two,
and the assembled date must exist; `datetime` years start at 1). -/
def mkDateChecked (ys ms ds : List Char) : Option SimpleDate :=
  if isDigits ys && decide (ys.length ≤ 4) && isDigits ms && decide (ms.length ≤ 2)
      && isDigits ds && decide (ds.length ≤ 2) then
    let y : Int := natOfDigits ys
    let m := natOfDigits ms
    let d := natOfDigits ds
    if decide (1 ≤ y) && validMonthDay (isLeapYear y) m d then
      some { year := y, month := m, day := d }
    else none
  else none

/-- Header parse for the `%Y-%m-%d` format. -/
def parseYMDdash (s : String) : Option SimpleDate :=
  match splitOnChar '-' s.toList with
  | [ys, ms, ds] => mkDateChecked ys ms ds
  | _ => none

/-- Header parse for the `%m/%d/%Y` format. -/
def parseMDYslash (s : String) : Option SimpleDate :=
  match splitOnChar '/' s.toList with
  | [ms, ds, ys] => mkDateChecked ys ms ds
  | _ => none

/-- Header parse for the `%d/%m/%Y` format. -/
def parseDMYslash (s : String) : Option SimpleDate :=
  match splitOnChar '/' s.toList with
  | [ds, ms, ys] => mkDateChecked ys ms ds
  | _ => none

/-- Header parse for the `%Y/%m/%d` format. -/
def parseYMDslash (s : String) : Option SimpleDate :=
  match splitOnChar '/' s.toList with
  | [ys, ms, ds] => mkDateChecked ys ms ds
  | _ => none

/-- Header parse for the bare `%m-%d` format. Following `strptime`,
which defaults the year to 1900, the month-day pair must be a valid
date of a non-leap year (so `02-29` never parses, as in the source). -/
def parseMonthDay (s : String) : Option (Nat × Nat) :=
  match splitOnChar '-' s.toList with
  | [ms, ds] =>
    if isDigits ms && decide (ms.length ≤ 2) && isDigits ds && decide (ds.length ≤ 2) then
      let m := natOfDigits ms
      let d := natOfDigits ds
      if validMonthDay false m d then some (m, d) else none
    else none
  | _ => none

/-- Date-column header recognition (src/utils/excel_loader.py lines
77-99): the five formats are attempted in the source's order and the
first success wins; a bare month-day header is completed with
`resolveMonthDay`. -/
def parseHeaderDate (now : Moment) (s : String) : Option SimpleDate :=
  parseYMDdash s <|> parseMDYslash s <|> parseDMYslash s <|> parseYMDslash s <|>
    (parseMonthDay s).map (fun md => resolveMonthDay now md.1 md.2)

/-- Zero-pads a natural number to the given width. -/
def padNum (width n : Nat) : String :=
  let r := toString n
  String.mk (List.replicate (width - r.length) '0') ++ r

/-- Renders a date as `strftime('%Y-%m-%d')` does. -/
def isoDate (d : SimpleDate) : String :=
  padNum 4 d.year.toNat ++ "-" ++ padNum 2 d.month ++ "-" ++ padNum 2 d.day

/-- Whitespace test for the `strip` step of header cleaning. -/
def isSpaceChar (c : Char) : Bool :=
  c = ' ' || c = '\t' || c = '\n' || c = '\r'

/-- Strips whitespace from both ends of a character list. -/
def trimChars (l : List Char) : List Char :=
  ((l.dropWhile isSpaceChar).reverse.dropWhile isSpaceChar).reverse

/-- Lower-cases a character and then replaces spaces and dots by
underscores, per character. -/
def cleanChar (c : Char) : Char :=
  let lc := c.toLower
  if lc = ' ' || lc = '.' then '_' else lc

/-- Column-header normalization (src/utils/excel_loader.py line 19):
strip, lower-case, then replace spaces and dots with underscores. -/
def cleanHeader (s : String) : String :=
  String.mk ((trimChars s.toList).map cleanChar)

/-- Fixed header-to-canonical-field rename map
(src/utils/excel_loader.py lines 33-47). Headers outside the map are
kept unchanged. -/
def renameCol (s : String) : String :=
  if s = "median_(last_4)" then "medianLast4"
  else if s = "floor" then "floorLegendary"
  else if s = "floor_1" then "floorEpic"
  else if s = "floor_2" then "floorRare"
  else if s = "floor_3" then "floorCommon"
  else if s = "⭐stars" then "stars"
  else if s = "unnamed:_2" then "unnamed_2"
  else s

/-- Keys of the rename map: the date-column scan skips columns whose
(renamed) name is one of these (src/utils/excel_loader.py lines 74-76). -/
def mappingKeys : List String :=
  ["fantasy_top_hero_page", "unnamed:_2", "hero_id", "name", "handle",
   "new_hero_yn", "median_(last_4)", "floor", "floor_1", "floor_2",
   "floor_3", "⭐stars"]

/-- Tabular input after the two skipped banner rows: an ordered header
list and rows of positionally aligned cells. -/
structure Table where
  headers : List String
  rows : List (List (Option Cell))
deriving DecidableEq

/-- Canonical record emitted by the normalizer: the relevant columns
(src/utils/excel_loader.py lines 49-64), each present only when the
source cell is present, plus the historical-score series. An absent
`historical_scores` key is represented by the empty list. -/
structure Record where
  fantasy_top_hero_page : Option Cell
  hero_id : Option Cell
  name : Option Cell
  handle : Option Cell
  new_hero_yn : Option Cell
  medianLast4 : Option Cell
  lastTournament1 : Option Cell
  lastTournament2 : Option Cell
  averageLast2 : Option Cell
  floorCommon : Option Cell
  floorRare : Option Cell
  floorEpic : Option Cell
  floorLegendary : Option Cell
  stars : Option Cell
  historical_scores : List (String × ℚ)
deriving DecidableEq

/-- Failure modes of the loader. `schemaError` is the `KeyError` that
`df.columns.get_loc` raises when the anchor column is absent (the
spec's `SchemaError`); `indexError` is positional access past the last
column; `valueError` is a failed `float(...)` coercion of a historical
score. All three abort the whole load and surface to the caller. -/
inductive LoadError where
  | schemaError
  | indexError
  | valueError
deriving DecidableEq

deriving instance DecidableEq for Except

/-- Cell of a row at a column position; out-of-range or NaN is absent. -/
def cellAt (row : List (Option Cell)) (j : Nat) : Option Cell :=
  row.getD j none

/-- Lookup of a row value by (renamed) column name, absent when the
column does not exist, mirroring `if col in df.columns and
pd.notna(row[col])`. -/
def lookupCol (renamed : List String) (row : List (Option Cell)) (name : String) :
    Option Cell :=
  match renamed.findIdx? (fun c => c = name) with
  | some j => cellAt row j
  | none => none

/-- Numeric view of a cell as pandas arithmetic sees it: only numeric
cells have a value. -/
def numOfCell (oc : Option Cell) : Option ℚ :=
  match oc with
  | some (Cell.num q) => some q
  | _ => none

/-- Row mean over the two tournament columns as `DataFrame.mean(axis=1)`
computes it: missing values are skipped, not zero-filled; the mean of
nothing is missing. -/
def meanOpt (a b : Option ℚ) : Option ℚ :=
  match a, b with
  | some x, some y => some ((x + y) / 2)
  | some x, none => some x
  | none, some y => some y
  | none, none => none

/-- Python `float(...)` applied to a historical-score cell: numeric
cells pass through; strings are parsed as plain signed decimals, and
anything else fails. -/
def parseUnsignedDecimal (l : List Char) : Option ℚ :=
  match splitOnChar '.' l with
  | [ip] => if isDigits ip then some (natOfDigits ip) else none
  | [ip, fp] =>
    if isDigits ip && isDigits fp then
      some ((natOfDigits ip : ℚ) + (natOfDigits fp : ℚ) / (10 ^ fp.length : ℚ))
    else none
  | _ => none

/-- Signed-decimal front end to `parseUnsignedDecimal`. -/
def parseDecimal (l : List Char) : Option ℚ :=
  match l with
  | '-' :: rest => (parseUnsignedDecimal rest).map (fun q => -q)
  | _ => parseUnsignedDecimal l

/-- Coercion of a present cell to float, the `float(row[orig_col])`
call of src/utils/excel_loader.py line 118. -/
def floatOfCell (c : Cell) : Option ℚ :=
  match c with
  | Cell.num q => some q
  | Cell.str s => parseDecimal s.toList

/-- Date-column detection (src/utils/excel_loader.py lines 66-101):
every column strictly after the anchor whose renamed name is not a
rename-map key and whose name parses as a date becomes a date column,
keyed by its position and carrying its resolved ISO date string. -/
def dateColumnsOf (now : Moment) (renamed : List String) (idx : Nat) :
    List (Nat × String) :=
  (List.range renamed.length).filterMap fun j =>
    if j < idx + 1 then none
    else if (renamed.getD j "") ∈ mappingKeys then none
    else (parseHeaderDate now (renamed.getD j "")).map fun d => (j, isoDate d)

/-- Dict-style insertion: a repeated date key overwrites the value in
place, a new key appends. -/
def upsert (l : List (String × ℚ)) (k : String) (v : ℚ) : List (String × ℚ) :=
  if l.any (fun p => p.1 = k) then
    l.map (fun p => if p.1 = k then (k, v) else p)
  else l ++ [(k, v)]

/-- Historical-score map of one row (src/utils/excel_loader.py lines
115-118): present cells of the date columns, coerced to float; a
failed coercion raises and aborts the whole load. -/
def historicalScoresOf (dateCols : List (Nat × String))
    (row : List (Option Cell)) : Except LoadError (List (String × ℚ)) :=
  dateCols.foldlM
    (fun acc jd =>
      match cellAt row jd.1 with
      | none => pure acc
      | some c =>
        match floatOfCell c with
        | some q => pure (upsert acc jd.2 q)
        | none => throw LoadError.valueError)
    []

/-- Field assembly for one row (src/utils/excel_loader.py lines
107-121): each relevant column contributes its raw cell when present;
the two tournament columns are the two positions after the anchor, and
`averageLast2` is their mean over available numeric values. -/
def mkRecord (renamed : List String) (idx : Nat) (row : List (Option Cell))
    (hs : List (String × ℚ)) : Record :=
  { fantasy_top_hero_page := lookupCol renamed row "fantasy_top_hero_page"
    hero_id := lookupCol renamed row "hero_id"
    name := lookupCol renamed row "name"
    handle := lookupCol renamed row "handle"
    new_hero_yn := lookupCol renamed row "new_hero_yn"
    medianLast4 := lookupCol renamed row "medianLast4"
    lastTournament1 := cellAt row (idx + 1)
    lastTournament2 := cellAt row (idx + 2)
    averageLast2 :=
      (meanOpt (numOfCell (cellAt row (idx + 1))) (numOfCell (cellAt row (idx + 2)))).map
        Cell.num
    floorCommon := lookupCol renamed row "floorCommon"
    floorRare := lookupCol renamed row "floorRare"
    floorEpic := lookupCol renamed row "floorEpic"
    floorLegendary := lookupCol renamed row "floorLegendary"
    stars := lookupCol renamed row "stars"
    historical_scores := hs }

/-- Row emission (src/utils/excel_loader.py lines 107-124): the record
is kept only when the `name` key is present; rows without it are
silently dropped. Note the check is key presence, not non-emptiness. -/
def buildRecord (renamed : List String) (idx : Nat)
    (dateCols : List (Nat × String)) (row : List (Option Cell)) :
    Except LoadError (Option Record) :=
  match historicalScoresOf dateCols row with
  | Except.error e => Except.error e
  | Except.ok hs =>
    let r0 := mkRecord renamed idx row hs
    if r0.name.isSome then Except.ok (some r0) else Except.ok none

/-- Row loop of the loader: records accumulate in row order; any raised
error aborts the whole batch. -/
def processRows (renamed : List String) (idx : Nat)
    (dateCols : List (Nat × String)) :
    List (List (Option Cell)) → Except LoadError (List Record)
  | [] => Except.ok []
  | row :: rest =>
    match buildRecord renamed idx dateCols row with
    | Except.error e => Except.error e
    | Except.ok o =>
      match processRows renamed idx dateCols rest with
      | Except.error e => Except.error e
      | Except.ok rs =>
        Except.ok
          (match o with
           | some r => r :: rs
           | none => rs)

/-- Loader entry point (src/utils/excel_loader.py `load_fantasy_sheet`):
clean the headers, locate the anchor column `median_(last_4)` (failing
with the schema error when absent), take the two following columns as
tournament scores (failing positionally when missing), rename, detect
date columns, and emit one record per named row. -/
def load_fantasy_sheet (now : Moment) (t : Table) :
    Except LoadError (List Record) :=
  let cols := t.headers.map cleanHeader
  match cols.findIdx? (fun c => c = "median_(last_4)") with
  | none => Except.error LoadError.schemaError
  | some idx =>
    if idx + 2 < cols.length then
      let renamed := cols.map renameCol
      processRows renamed idx (dateColumnsOf now renamed idx) t.rows
    else Except.error LoadError.indexError

/-- Stored card document as `get_investment_suggestions` reads it from
the `fantasy_sheets` collection. Optional fields stand for possibly
missing document keys. `rarity` is a document field read by the
pipeline's `$switch`; documents produced by this system's import path
never carry it. `hero_id` holds the `str(...)` rendering used by the
output formatter. `historical_scores` is the stored score map in
insertion order; a missing key is the empty list (the `$match` tests
`$exists` and `≠ {}`, which coincide on this representation). -/
structure Doc where
  name : String
  hero_id : Option String
  rarity : Option String
  floorLegendary : Option ℚ
  floorEpic : Option ℚ
  floorRare : Option ℚ
  floorCommon : Option ℚ
  averageLast2 : Option ℚ
  stars : Option ℚ
  historical_scores : List (String × ℚ)
deriving DecidableEq

/-- Mongo query `{field: {$lte: p}}` on a numeric field: a missing
field never matches. -/
def optLe (oc : Option ℚ) (p : ℚ) : Bool :=
  match oc with
  | some x => decide (x ≤ p)
  | none => false

/-- Price part of the initial `$match` (src/database/mongodb.py lines
130-146). Python `if max_price:` skips the filter when `max_price` is
`None` or `0`; otherwise the request's `rarity` selects one floor
field, and any unrecognised or absent rarity compares all four tiers
with `$or`. -/
def priceCond (max_price : Option ℚ) (rarity : Option String) (d : Doc) : Bool :=
  match max_price with
  | none => true
  | some p =>
    if p = 0 then true
    else if rarity = some "Legendary" then optLe d.floorLegendary p
    else if rarity = some "Epic" then optLe d.floorEpic p
    else if rarity = some "Rare" then optLe d.floorRare p
    else if rarity = some "Common" then optLe d.floorCommon p
    else
      optLe d.floorLegendary p || optLe d.floorEpic p || optLe d.floorRare p ||
        optLe d.floorCommon p

/-- Full initial `$match` (src/database/mongodb.py lines 128-155): the
price condition plus a non-empty `historical_scores`. -/
def matchStage (max_price : Option ℚ) (rarity : Option String) (d : Doc) : Bool :=
  priceCond max_price rarity d && !d.historical_scores.isEmpty

/-- Floor-price `$switch` (src/database/mongodb.py lines 164-173). The
branches compare the document's own `rarity` field (the aggregation
path `$rarity`), not the request parameter; a missing field matches no
branch, so the default `$floorCommon` applies. -/
def floor_price (d : Doc) : Option ℚ :=
  if d.rarity = some "Legendary" then d.floorLegendary
  else if d.rarity = some "Epic" then d.floorEpic
  else if d.rarity = some "Rare" then d.floorRare
  else d.floorCommon

/-- Score-efficiency `$cond` (src/database/mongodb.py lines 192-207):
`averageLast2 / floor_price` when both compare greater than zero
(`$gt` against a missing value is false), else `0`. The division is
only reached with a non-zero divisor. -/
def score_efficiency (d : Doc) : ℚ :=
  match d.averageLast2, floor_price d with
  | some a, some f => if 0 < a ∧ 0 < f then a / f else 0
  | _, _ => 0

/-- Values of the stored score map, as `$objectToArray` + `$map`
produce them. -/
def historicalValues (d : Doc) : List ℚ :=
  d.historical_scores.map (fun p => p.2)

/-- Historical average `$cond` (src/database/mongodb.py lines 218-225):
`$avg` of the values when there are any, else `0`. -/
def historical_average (vals : List ℚ) : ℚ :=
  if 0 < vals.length then vals.sum / (vals.length : ℚ) else 0

/-- Composite-score `$cond` (src/database/mongodb.py lines 237-262):
`score_efficiency * (historical_average / (1 + score_consistency))`
when efficiency and average are both positive, else `0`. -/
def investment_score (se ha sc : ℚ) : ℚ :=
  if 0 < se ∧ 0 < ha then se * (ha / (1 + sc)) else 0

/-- Document together with the fields the `$addFields` stages compute. -/
structure Scored where
  doc : Doc
  floorPriceF : Option ℚ
  gamesCount : Nat
  efficiency : ℚ
  histAvg : ℚ
  consistency : ℚ
  invScore : ℚ
deriving DecidableEq

/-- Per-document computation of all derived fields, parameterized by
`sd`, the interpretation of the external `$stdDevPop` operator (its
square root leaves the rationals, so it is not fixed here; the
claims' theorems hold for every interpretation, and every concrete
evaluation below uses constant score lists, on which the operator
returns `0`). The guard mirrors the `$cond` of lines 226-232. -/
def scoreDoc (sd : List ℚ → ℚ) (d : Doc) : Scored :=
  let vals := historicalValues d
  let se := score_efficiency d
  let ha := historical_average vals
  let sc := if 0 < vals.length then sd vals else 0
  { doc := d
    floorPriceF := floor_price d
    gamesCount := vals.length
    efficiency := se
    histAvg := ha
    consistency := sc
    invScore := investment_score se ha sc }

/-- Descending comparison on `investment_score` used by the `$sort`
stage (src/database/mongodb.py lines 264-267). -/
def sugLE (a b : Scored) : Bool :=
  decide (b.invScore ≤ a.invScore)

/-- Documents surviving both `$match` stages, each with its computed
fields, in collection order (src/database/mongodb.py lines 128-214). -/
def eligibleScored (sd : List ℚ → ℚ) (mp : Option ℚ) (rar : Option String)
    (minG : Nat) (docs : List Doc) : List Scored :=
  ((docs.filter (matchStage mp rar)).map (scoreDoc sd)).filter
    (fun s => decide (minG ≤ s.gamesCount))

/-- Result of the `$sort {investment_score: -1}` stage, modelled as a
stable descending sort. -/
def rankedScored (sd : List ℚ → ℚ) (mp : Option ℚ) (rar : Option String)
    (minG : Nat) (docs : List Doc) : List Scored :=
  (eligibleScored sd mp rar minG docs).mergeSort sugLE

/-- Result after the `$limit` stage. -/
def suggestScored (sd : List ℚ → ℚ) (mp : Option ℚ) (rar : Option String)
    (minG lim : Nat) (docs : List Doc) : List Scored :=
  (rankedScored sd mp rar minG docs).take lim

/-- Response entry built from one aggregated card
(src/database/mongodb.py lines 287-303). -/
structure Suggestion where
  name : String
  hero_id : String
  rarity : String
  floorPrice : ℚ
  averageLast2 : ℚ
  historicalAverage : ℚ
  scoreConsistency : ℚ
  scoreEfficiency : ℚ
  investmentScore : ℚ
  historicalGames : Nat
  stars : Int
  historical_scores : List (String × ℚ)
deriving DecidableEq

/-- Python `int(...)` on a rational: truncation toward zero. -/
def truncQ (q : ℚ) : Int :=
  if 0 ≤ q then q.floor else q.ceil

/-- Output formatting of one card (src/database/mongodb.py lines
288-303): pass-through identity fields, `rarity or "Common"`, and the
computed fields with `card.get(..., 0)` defaults. -/
def formatSuggestion (rarity : Option String) (s : Scored) : Suggestion :=
  { name := s.doc.name
    hero_id := s.doc.hero_id.getD ""
    rarity :=
      match rarity with
      | some r => if r = "" then "Common" else r
      | none => "Common"
    floorPrice := s.floorPriceF.getD 0
    averageLast2 := s.doc.averageLast2.getD 0
    historicalAverage := s.histAvg
    scoreConsistency := s.consistency
    scoreEfficiency := s.efficiency
    investmentScore := s.invScore
    historicalGames := s.gamesCount
    stars := truncQ (s.doc.stars.getD 0)
    historical_scores := s.doc.historical_scores }

/-- Entry point of the scoring engine (src/database/mongodb.py
`get_investment_suggestions`): the aggregation pipeline over the
stored documents followed by response formatting. -/
def get_investment_suggestions (sd : List ℚ → ℚ) (mp : Option ℚ)
    (rar : Option String) (minG lim : Nat) (docs : List Doc) :
    List Suggestion :=
  (suggestScored sd mp rar minG lim docs).map (formatSuggestion rar)

/-- C3: `score_efficiency` equals `averageLast2 / floor_price` exactly
when both are present and positive (and the divisor is then non-zero,
witnessed by the multiplicative form), and is `0` in every other case:
non-positive average or floor, floor of zero, missing average, or
missing floor price. The function is total, so the guarded computation
cannot raise. -/
theorem c3_score_efficiency_guarded (d : Doc) (a f : ℚ) :
    (d.averageLast2 = some a → floor_price d = some f → 0 < a → 0 < f →
      score_efficiency d = a / f ∧ score_efficiency d * f = a)
    ∧ (d.averageLast2 = some a → floor_price d = some f → a ≤ 0 ∨ f ≤ 0 →
      score_efficiency d = 0)
    ∧ (d.averageLast2 = none → score_efficiency d = 0)
    ∧ (floor_price d = none → score_efficiency d = 0) := by
  refine ⟨?_, ?_, ?_, ?_⟩
  · intro ha hf hpa hpf
    have he : score_efficiency d = a / f := by
      simp only [score_efficiency, ha, hf, if_pos (And.intro hpa hpf)]
    refine ⟨he, ?_⟩
    rw [he]
    exact div_mul_cancel₀ a (ne_of_gt hpf)
  · intro ha hf hle
    have hneg : ¬(0 < a ∧ 0 < f) := by
      rcases hle with h | h
      · exact fun hc => absurd hc.1 (not_lt.mpr h)
      · exact fun hc => absurd hc.2 (not_lt.mpr h)
    simp only [score_efficiency, ha, hf, if_neg hneg]
  · intro h
    simp [score_efficiency, h]
  · intro h
    cases h2 : d.averageLast2 <;> simp [score_efficiency, h, h2]

/-- Concrete card for the C3 witness: positive average 10 over common
floor 2. -/
def dC3 : Doc :=
  { name := "Cara", hero_id := none, rarity := none, floorLegendary := none,
    floorEpic := none, floorRare := none, floorCommon := some 2,
    averageLast2 := some 10, stars := none,
    historical_scores := [("2024-01-01", 10)] }

/-- Concrete card for the C3 witness: floor price of zero. -/
def dC3z : Doc :=
  { name := "Caro", hero_id := none, rarity := none, floorLegendary := none,
    floorEpic := none, floorRare := none, floorCommon := some 0,
    averageLast2 := some 10, stars := none,
    historical_scores := [("2024-01-01", 10)] }

/-- Witness for C3 at concrete cards: the efficiency of `dC3` is the
exact quotient, and a zero floor forces `0`. -/
theorem c3_score_efficiency_guarded_witness :
    score_efficiency dC3 * 2 = 10 ∧ score_efficiency dC3 = 5 ∧
      score_efficiency dC3z = 0 := by
  have h1 := (c3_score_efficiency_guarded dC3 10 2).1 rfl (by decide) (by norm_num)
    (by norm_num)
  have h2 := (c3_score_efficiency_guarded dC3z 10 0).2.1 rfl (by decide)
    (Or.inr le_rfl)
  refine ⟨h1.2, ?_, h2⟩
  rw [h1.1]
  norm_num

/-- C4: the composite score is strictly decreasing in the consistency
penalty while efficiency and average stay fixed and positive, a zero
consistency leaves the average unscaled, and a non-positive efficiency
or average forces a zero score. -/
theorem c4_investment_score_shape (se ha sc1 sc2 : ℚ) :
    (0 < se → 0 < ha → 0 ≤ sc1 → sc1 < sc2 →
      investment_score se ha sc2 < investment_score se ha sc1)
    ∧ (0 < se → 0 < ha → investment_score se ha 0 = se * ha)
    ∧ (se ≤ 0 ∨ ha ≤ 0 → investment_score se ha sc1 = 0) := by
  refine ⟨?_, ?_, ?_⟩
  · intro hse hha h1 h12
    simp only [investment_score, if_pos (And.intro hse hha)]
    have hd : ha / (1 + sc2) < ha / (1 + sc1) :=
      div_lt_div_of_pos_left hha (by linarith) (by linarith)
    exact mul_lt_mul_of_pos_left hd hse
  · intro hse hha
    simp only [investment_score, if_pos (And.intro hse hha)]
    norm_num
  · intro h
    have hneg : ¬(0 < se ∧ 0 < ha) := by
      rcases h with h | h
      · exact fun hc => absurd hc.1 (not_lt.mpr h)
      · exact fun hc => absurd hc.2 (not_lt.mpr h)
    simp only [investment_score, if_neg hneg]

/-- Witness for C4 at concrete values: raising the consistency from 0
to 1 strictly lowers the score, zero consistency gives the plain
product, and a non-positive efficiency zeroes the score. -/
theorem c4_investment_score_shape_witness :
    investment_score 2 3 1 < investment_score 2 3 0 ∧
      investment_score 2 3 0 = 6 ∧ investment_score (-1) 3 1 = 0 := by
  have h1 := (c4_investment_score_shape 2 3 0 1).1 (by norm_num) (by norm_num)
    le_rfl (by norm_num)
  have h2 := (c4_investment_score_shape 2 3 0 0).2.1 (by norm_num) (by norm_num)
  have h3 := (c4_investment_score_shape (-1) 3 1 0).2.2 (Or.inl (by norm_num))
  refine ⟨h1, ?_, h3⟩
  rw [h2]
  norm_num

/-- C10: a `max_price` of `0` is falsy in `if max_price:`, so the
price condition is skipped entirely — the initial `$match` degenerates
to the non-empty `historical_scores` test, identical to an omitted
`max_price`, for every rarity argument and every document. -/
theorem c10_zero_max_price_disables_price_filter (rar : Option String) (d : Doc) :
    priceCond (some 0) rar d = true
    ∧ matchStage (some 0) rar d = !d.historical_scores.isEmpty
    ∧ matchStage (some 0) rar d = matchStage none rar d := by
  refine ⟨?_, ?_, ?_⟩ <;> simp [priceCond, matchStage]

theorem sugLE_trans (a b c : Scored) (hab : sugLE a b) (hbc : sugLE b c) :
    sugLE a c := by
  simp only [sugLE, decide_eq_true_eq] at hab hbc ⊢
  exact le_trans hbc hab

theorem sugLE_total (a b : Scored) : sugLE a b || sugLE b a := by
  rcases le_total b.invScore a.invScore with h | h <;> simp [sugLE, h]

/-- C5: the scoring request returns at most `limit` entries, the
returned sequence is non-increasing in `investment_score`, the ranked
order is a permutation of the eligible cards, ties keep the original
card order (for each score value, filtering the ranked order by that
value gives exactly the eligible cards with that value in their
original order — stability of the modelled `$sort`), and the response
is the formatting of the first `limit` entries of that ranked order. -/
theorem c5_ranking_sorted_stable_truncated (sd : List ℚ → ℚ) (mp : Option ℚ)
    (rar : Option String) (minG lim : Nat) (docs : List Doc) :
    (get_investment_suggestions sd mp rar minG lim docs).length ≤ lim
    ∧ (get_investment_suggestions sd mp rar minG lim docs).Pairwise
        (fun a b => b.investmentScore ≤ a.investmentScore)
    ∧ (rankedScored sd mp rar minG docs).Perm (eligibleScored sd mp rar minG docs)
    ∧ (∀ q : ℚ,
        (rankedScored sd mp rar minG docs).filter (fun s => decide (s.invScore = q))
          = (eligibleScored sd mp rar minG docs).filter (fun s => decide (s.invScore = q)))
    ∧ get_investment_suggestions sd mp rar minG lim docs
        = ((rankedScored sd mp rar minG docs).take lim).map (formatSuggestion rar) := by
  have hsorted : (rankedScored sd mp rar minG docs).Pairwise
      (fun a b => sugLE a b = true) :=
    List.sorted_mergeSort sugLE_trans sugLE_total (eligibleScored sd mp rar minG docs)
  refine ⟨?_, ?_, ?_, ?_, rfl⟩
  · simp only [get_investment_suggestions, suggestScored, List.length_map,
      List.length_take]
    exact min_le_left _ _
  · have htake : (suggestScored sd mp rar minG lim docs).Pairwise
        (fun a b => sugLE a b = true) :=
      List.Pairwise.sublist (List.take_sublist lim _) hsorted
    simp only [get_investment_suggestions, List.pairwise_map]
    refine htake.imp ?_
    intro a b h
    simpa [sugLE, formatSuggestion] using h
  · exact List.mergeSort_perm (eligibleScored sd mp rar minG docs) sugLE
  · intro q
    have hmem : ∀ s ∈ (eligibleScored sd mp rar minG docs).filter
        (fun s => decide (s.invScore = q)), s.invScore = q := by
      intro s hs
      simpa using List.of_mem_filter hs
    have hpw : ((eligibleScored sd mp rar minG docs).filter
        (fun s => decide (s.invScore = q))).Pairwise (fun a b => sugLE a b = true) := by
      refine List.pairwise_of_forall_mem_list ?_
      intro a ha b hb
      simp [sugLE, hmem a ha, hmem b hb]
    have hsub : List.Sublist
        ((eligibleScored sd mp rar minG docs).filter (fun s => decide (s.invScore = q)))
        (eligibleScored sd mp rar minG docs) :=
      List.filter_sublist _
    have h1 := List.sublist_mergeSort sugLE_trans sugLE_total hpw hsub
    have h2 : List.Perm
        ((rankedScored sd mp rar minG docs).filter (fun s => decide (s.invScore = q)))
        ((eligibleScored sd mp rar minG docs).filter (fun s => decide (s.invScore = q))) :=
      (List.mergeSort_perm (eligibleScored sd mp rar minG docs) sugLE).filter _
    have h3 := h1.filter (fun s => decide (s.invScore = q))
    rw [List.filter_eq_self.mpr (fun a ha => (List.mem_filter.mp ha).2)] at h3
    exact (List.Sublist.eq_of_length h3 h2.length_eq.symm).symm

/-- Provenance of a pipeline result: every entry surviving `$limit`
comes from a stored document that passed the initial `$match`, carries
that document's computed fields, and passed the game-count `$match`. -/
theorem mem_suggestScored (sd : List ℚ → ℚ) (mp : Option ℚ) (rar : Option String)
    (minG lim : Nat) (docs : List Doc) (s : Scored)
    (hs : s ∈ suggestScored sd mp rar minG lim docs) :
    ∃ d ∈ docs, matchStage mp rar d = true ∧ s = scoreDoc sd d ∧ minG ≤ s.gamesCount := by
  have h1 : s ∈ rankedScored sd mp rar minG docs := List.mem_of_mem_take hs
  have h2 : s ∈ eligibleScored sd mp rar minG docs := List.mem_mergeSort.mp h1
  have h3 := List.mem_filter.mp h2
  obtain ⟨d, hd, hds⟩ := List.mem_map.mp h3.1
  have hd2 := List.mem_filter.mp hd
  exact ⟨d, hd2.1, hd2.2, hds.symm, by simpa using h3.2⟩

/-- Interpretation of `$stdDevPop` used for concrete evaluations; all
concrete score lists below are constant, where the population standard
deviation is `0`, so this interpretation agrees with the operator on
every list it is applied to. -/
def sdZero : List ℚ → ℚ := fun _ => 0

/-- Stored card refuting C1: no `rarity` field (as every card written
by this system's import path), `floorLegendary = 2` but
`floorCommon = 1`, with three constant historical scores. -/
def dC1 : Doc :=
  { name := "Alba", hero_id := none, rarity := none, floorLegendary := some 2,
    floorEpic := some 2, floorRare := some 2, floorCommon := some 1,
    averageLast2 := some 10, stars := none,
    historical_scores := [("2024-01-01", 10), ("2024-01-08", 10), ("2024-01-15", 10)] }

/-- Counterexample to C1 as stated: a request with
`rarity = "Legendary"` returns `dC1` with `floor_price = 1`, its
`floorCommon`, not its `floorLegendary = 2` — the `$switch` keys on
the document's absent `rarity` field, not on the request parameter. -/
theorem c1_counterexample :
    (get_investment_suggestions sdZero none (some "Legendary") 3 10 [dC1]).map
      (fun s => s.floorPrice) = [1]
    ∧ dC1.floorLegendary = some 2 ∧ (1 : ℚ) ≠ 2 := by
  refine ⟨?_, rfl, by norm_num⟩
  simp [get_investment_suggestions, suggestScored, rankedScored, eligibleScored,
    matchStage, priceCond, scoreDoc, formatSuggestion, floor_price, dC1,
    historicalValues]

/-- C1 as amended: on documents without a `rarity` field — all cards
this system persists — every returned suggestion's `floor_price` is
the source card's `floorCommon` (defaulted to 0 when absent),
whatever the request's `rarity` parameter is. -/
theorem c1_floor_price_defaults_to_common (sd : List ℚ → ℚ) (mp : Option ℚ)
    (rar : Option String) (minG lim : Nat) (docs : List Doc)
    (hr : ∀ d ∈ docs, d.rarity = none) (s : Suggestion)
    (hs : s ∈ get_investment_suggestions sd mp rar minG lim docs) :
    ∃ d ∈ docs, s.floorPrice = d.floorCommon.getD 0 := by
  obtain ⟨sc, hsc, hfmt⟩ := List.mem_map.mp hs
  obtain ⟨d, hd, hmatch, hsd, hcount⟩ :=
    mem_suggestScored sd mp rar minG lim docs sc hsc
  refine ⟨d, hd, ?_⟩
  rw [← hfmt]
  subst hsd
  have hrar := hr d hd
  simp [formatSuggestion, scoreDoc, floor_price, hrar]

/-- Witness for the amended C1, applied to the concrete store `[dC1]`
and a Legendary request. -/
theorem c1_floor_price_defaults_to_common_witness :
    (formatSuggestion (some "Legendary") (scoreDoc sdZero dC1)).floorPrice
      = dC1.floorCommon.getD 0 := by
  obtain ⟨d, hd, he⟩ := c1_floor_price_defaults_to_common sdZero none
    (some "Legendary") 3 10 [dC1] (by decide)
    (formatSuggestion (some "Legendary") (scoreDoc sdZero dC1))
    (by
      simp [get_investment_suggestions, suggestScored, rankedScored, eligibleScored,
        matchStage, priceCond, scoreDoc, formatSuggestion, floor_price, dC1,
        historicalValues])
  have hd2 : d = dC1 := by simpa using hd
  rw [hd2] at he
  exact he

/-- Stored card refuting C2 at `max_price = 0`: every floor field is
either absent or `5 > 0`, yet the card passes the price stage. -/
def dC2 : Doc :=
  { name := "Bree", hero_id := none, rarity := none, floorLegendary := none,
    floorEpic := none, floorRare := none, floorCommon := some 5,
    averageLast2 := some 10, stars := none,
    historical_scores := [("2024-01-01", 10), ("2024-01-08", 10), ("2024-01-15", 10)] }

/-- Counterexample to C2 as stated: with `max_price = 0` given, `dC2`
appears in the result although none of its four floor fields is
`≤ 0` — `if max_price:` treats `0` as absent and skips the filter. -/
theorem c2_counterexample :
    (get_investment_suggestions sdZero (some 0) none 3 10 [dC2]).map
      (fun s => s.name) = ["Bree"]
    ∧ optLe dC2.floorLegendary 0 = false ∧ optLe dC2.floorEpic 0 = false
    ∧ optLe dC2.floorRare 0 = false ∧ optLe dC2.floorCommon 0 = false := by
  refine ⟨?_, rfl, rfl, rfl, by decide⟩
  simp [get_investment_suggestions, suggestScored, rankedScored, eligibleScored,
    matchStage, priceCond, scoreDoc, formatSuggestion, floor_price, dC2,
    historicalValues]

/-- C2 as amended: a card appears in the result only if it is stored,
its `historical_scores` map is non-empty, its game count meets
`min_historical_games`, and it satisfies the price condition of the
initial `$match` — which compares the requested tier's floor (or any
tier when `rarity` is absent or unrecognised) only when the given
`max_price` is non-zero, a zero `max_price` being treated as omitted. -/
theorem c2_result_only_eligible (sd : List ℚ → ℚ) (mp : Option ℚ)
    (rar : Option String) (minG lim : Nat) (docs : List Doc) (s : Scored)
    (hs : s ∈ suggestScored sd mp rar minG lim docs) :
    s.doc ∈ docs ∧ s.doc.historical_scores ≠ []
    ∧ minG ≤ s.doc.historical_scores.length ∧ priceCond mp rar s.doc = true := by
  obtain ⟨d, hd, hmatch, hsd, hcount⟩ :=
    mem_suggestScored sd mp rar minG lim docs s hs
  subst hsd
  have hdoc : (scoreDoc sd d).doc = d := rfl
  rw [hdoc]
  simp only [matchStage, Bool.and_eq_true] at hmatch
  refine ⟨hd, ?_, ?_, hmatch.1⟩
  · simpa using hmatch.2
  · simpa [scoreDoc, historicalValues] using hcount

/-- Stored card for the C2 witness: passes a genuine (non-zero) price
filter through its `floorCommon = 1`. -/
def dC2w : Doc :=
  { name := "Brom", hero_id := none, rarity := none, floorLegendary := none,
    floorEpic := none, floorRare := none, floorCommon := some 1,
    averageLast2 := some 10, stars := none,
    historical_scores := [("2024-02-01", 10), ("2024-02-08", 10), ("2024-02-15", 10)] }

/-- Witness for the amended C2 at a concrete request with
`max_price = 1`. -/
theorem c2_result_only_eligible_witness :
    (scoreDoc sdZero dC2w).doc ∈ [dC2w] ∧ dC2w.historical_scores ≠ []
    ∧ 3 ≤ dC2w.historical_scores.length ∧ priceCond (some 1) none dC2w = true := by
  have h := c2_result_only_eligible sdZero (some 1) none 3 10 [dC2w]
    (scoreDoc sdZero dC2w)
    (by
      simp [suggestScored, rankedScored, eligibleScored, matchStage, priceCond,
        optLe, scoreDoc, floor_price, dC2w, historicalValues])
  exact h

/-- Reference moment for concrete loader runs. -/
def nowW : Moment :=
  { year := 2024, month := 6, day := 1, tod := 0 }

/-- C9: when the cleaned headers do not contain the anchor column
`median_(last_4)`, the load always fails with the schema error — no
records are emitted (and hence nothing can be inserted), and the
failure surfaces to the caller. -/
theorem c9_missing_anchor_schema_error (now : Moment) (t : Table)
    (h : "median_(last_4)" ∉ t.headers.map cleanHeader) :
    load_fantasy_sheet now t = Except.error LoadError.schemaError := by
  have hfind : (t.headers.map cleanHeader).findIdx?
      (fun c => decide (c = "median_(last_4)")) = none := by
    rw [List.findIdx?_eq_none_iff]
    intro a ha
    exact decide_eq_false (fun heq => h (heq ▸ ha))
  simp [load_fantasy_sheet, hfind]

/-- Anchor-free table for the C9 witness. -/
def tC9 : Table :=
  { headers := ["Name", "Floor"], rows := [[some (Cell.str "Ann"), some (Cell.num 3)]] }

/-- Witness for C9 at a concrete anchor-free table. -/
theorem c9_missing_anchor_schema_error_witness :
    load_fantasy_sheet nowW tC9 = Except.error LoadError.schemaError :=
  c9_missing_anchor_schema_error nowW tC9 (by decide)

theorem buildRecord_name_isSome (renamed : List String) (idx : Nat)
    (dcs : List (Nat × String)) (row : List (Option Cell)) (r : Record)
    (h : buildRecord renamed idx dcs row = Except.ok (some r)) :
    r.name.isSome = true := by
  cases hh : historicalScoresOf dcs row with
  | error e => simp [buildRecord, hh] at h
  | ok hs =>
    simp only [buildRecord, hh] at h
    split at h
    · rename_i hn
      simp only [Except.ok.injEq, Option.some.injEq] at h
      rw [← h]
      exact hn
    · simp at h

theorem processRows_name_isSome (renamed : List String) (idx : Nat)
    (dcs : List (Nat × String)) (rows : List (List (Option Cell)))
    (rs : List Record) (h : processRows renamed idx dcs rows = Except.ok rs) :
    ∀ r ∈ rs, r.name.isSome = true := by
  induction rows generalizing rs with
  | nil =>
    simp only [processRows, Except.ok.injEq] at h
    subst h
    simp
  | cons row rest ih =>
    cases hb : buildRecord renamed idx dcs row with
    | error e => simp [processRows, hb] at h
    | ok o =>
      cases hp : processRows renamed idx dcs rest with
      | error e => simp [processRows, hb, hp] at h
      | ok rs2 =>
        simp only [processRows, hb, hp, Except.ok.injEq] at h
        cases o with
        | none =>
          subst h
          exact ih rs2 hp
        | some r1 =>
          subst h
          intro r hr
          rcases List.mem_cons.mp hr with h1 | h2
          · subst h1
            exact buildRecord_name_isSome renamed idx dcs row r hb
          · exact ih rs2 hp r h2

/-- C6 as amended: every record emitted by the loader has the `name`
key present — rows with a missing name are dropped — but the presence
check is key existence, so a present empty-string name is emitted. -/
theorem c6_emitted_records_have_name_key (now : Moment) (t : Table)
    (rs : List Record) (h : load_fantasy_sheet now t = Except.ok rs)
    (r : Record) (hr : r ∈ rs) : r.name.isSome = true := by
  cases hf : (t.headers.map cleanHeader).findIdx?
      (fun c => decide (c = "median_(last_4)")) with
  | none => simp [load_fantasy_sheet, hf] at h
  | some idx =>
    simp only [load_fantasy_sheet, hf] at h
    split at h
    · exact processRows_name_isSome _ idx _ t.rows rs h r hr
    · simp at h

/-- Table refuting C6 as stated: the first row carries the empty
string as its name (a present value for `pd.notna`), the second row
has no name at all. -/
def tC6 : Table :=
  { headers := ["Median (last 4)", "x", "y", "Name"],
    rows := [[some (Cell.num 12), none, none, some (Cell.str "")],
             [some (Cell.num 5), none, none, none]] }

/-- Record the loader emits for the first row of `tC6`. -/
def rC6 : Record :=
  { fantasy_top_hero_page := none, hero_id := none, name := some (Cell.str ""),
    handle := none, new_hero_yn := none, medianLast4 := some (Cell.num 12),
    lastTournament1 := none, lastTournament2 := none, averageLast2 := none,
    floorCommon := none, floorRare := none, floorEpic := none,
    floorLegendary := none, stars := none, historical_scores := [] }

/-- Counterexample to C6 as stated: the row whose name is the empty
string is emitted (the check `if 'name' in record` tests key presence,
not non-emptiness), while the nameless row is dropped. -/
theorem c6_counterexample :
    load_fantasy_sheet nowW tC6 = Except.ok [rC6]
    ∧ rC6.name = some (Cell.str "") := by
  exact ⟨by decide, rfl⟩

/-- Witness for the amended C6 at the concrete table `tC6`. -/
theorem c6_emitted_records_have_name_key_witness : rC6.name.isSome = true :=
  c6_emitted_records_have_name_key nowW tC6 [rC6] (by decide) rC6 (by decide)

/-- String-cell test used to state that an emitted identifier is not a
string. -/
def isStrCell : Option Cell → Bool
  | some (Cell.str _) => true
  | _ => false

/-- Table refuting C8: a numeric `hero_id` column value. -/
def tC8 : Table :=
  { headers := ["Hero ID", "Name", "Median (last 4)", "x", "y"],
    rows := [[some (Cell.num 7), some (Cell.str "Ann"), some (Cell.num 12), none, none]] }

/-- Record the loader emits for the single row of `tC8`. -/
def rC8 : Record :=
  { fantasy_top_hero_page := none, hero_id := some (Cell.num 7),
    name := some (Cell.str "Ann"), handle := none, new_hero_yn := none,
    medianLast4 := some (Cell.num 12), lastTournament1 := none,
    lastTournament2 := none, averageLast2 := none, floorCommon := none,
    floorRare := none, floorEpic := none, floorLegendary := none, stars := none,
    historical_scores := [] }

/-- Counterexample to C8 as stated: the emitted record carries
`hero_id` as the raw numeric value `7`, not a string — the loader
performs no string coercion (that happens only in the read path). -/
theorem c8_counterexample :
    load_fantasy_sheet nowW tC8 = Except.ok [rC8]
    ∧ rC8.hero_id = some (Cell.num 7) ∧ isStrCell rC8.hero_id = false := by
  exact ⟨by decide, rfl, rfl⟩

/-- C8 as amended: in every record the normalizer emits, `hero_id` and
`new_hero_yn` hold exactly the raw source-row cell values — numeric
sources stay numeric; no string coercion happens in the normalizer. -/
theorem c8_identifier_passthrough (renamed : List String) (idx : Nat)
    (dcs : List (Nat × String)) (row : List (Option Cell)) (r : Record)
    (h : buildRecord renamed idx dcs row = Except.ok (some r)) :
    r.hero_id = lookupCol renamed row "hero_id"
    ∧ r.new_hero_yn = lookupCol renamed row "new_hero_yn" := by
  cases hh : historicalScoresOf dcs row with
  | error e => simp [buildRecord, hh] at h
  | ok hs =>
    simp only [buildRecord, hh] at h
    split at h
    · simp only [Except.ok.injEq, Option.some.injEq] at h
      rw [← h]
      exact ⟨rfl, rfl⟩
    · simp at h

/-- Witness for the amended C8 at the single row of `tC8`. -/
theorem c8_identifier_passthrough_witness :
    rC8.hero_id = lookupCol ["hero_id", "name", "medianLast4", "x", "y"]
      [some (Cell.num 7), some (Cell.str "Ann"), some (Cell.num 12), none, none]
      "hero_id"
    ∧ rC8.new_hero_yn = lookupCol ["hero_id", "name", "medianLast4", "x", "y"]
      [some (Cell.num 7), some (Cell.str "Ann"), some (Cell.num 12), none, none]
      "new_hero_yn" :=
  c8_identifier_passthrough ["hero_id", "name", "medianLast4", "x", "y"] 2
    (dateColumnsOf nowW ["hero_id", "name", "medianLast4", "x", "y"] 2)
    [some (Cell.num 7), some (Cell.str "Ann"), some (Cell.num 12), none, none]
    rC8 (by decide)

theorem isDigits_not_mem_slash (l : List Char) (h : isDigits l = true) :
    '/' ∉ l := by
  simp only [isDigits, Bool.and_eq_true] at h
  intro hm
  have := List.all_eq_true.mp h.2 _ hm
  simp at this

/-- C7: a header that parses in the bare month-day format (the only
format with two dash-separated digit groups, so the four earlier
formats all fail on it) resolves to the current year, except when the
resulting date would be strictly after `now`, in which case it
resolves to the previous year. -/
theorem c7_month_day_year_resolution (now : Moment) (s : String) (m d : Nat)
    (h : parseMonthDay s = some (m, d)) :
    (momentLt now (dateAsMoment { year := now.year, month := m, day := d }) = true →
      parseHeaderDate now s = some { year := now.year - 1, month := m, day := d })
    ∧ (momentLt now (dateAsMoment { year := now.year, month := m, day := d }) = false →
      parseHeaderDate now s = some { year := now.year, month := m, day := d }) := by
  simp only [parseMonthDay] at h
  split at h
  · rename_i ms ds heq
    split at h
    · rename_i hdig
      split at h
      · rename_i hval
        simp only [Option.some.injEq, Prod.mk.injEq] at h
        obtain ⟨hm, hd⟩ := h
        subst hm
        subst hd
        obtain ⟨⟨⟨hms, hl1⟩, hds⟩, hl2⟩ := by
          rw [Bool.and_eq_true, Bool.and_eq_true, Bool.and_eq_true] at hdig
          exact hdig
        have heq2 : splitOnChar '-' s.data = [ms, ds] := heq
        have hjoin : s.data = ms ++ '-' :: ds := by
          have hj := joinParts_splitOnChar '-' s.data
          rw [heq2] at hj
          simpa [joinParts] using hj.symm
        have hnos : '/' ∉ s.data := by
          rw [hjoin]
          intro hmem
          rcases List.mem_append.mp hmem with hin | hin
          · exact isDigits_not_mem_slash ms hms hin
          · rcases List.mem_cons.mp hin with hc | hin2
            · exact absurd hc (by decide)
            · exact isDigits_not_mem_slash ds hds hin2
        have hslash := splitOnChar_of_not_mem '/' s.data hnos
        have h1 : parseYMDdash s = none := by simp [parseYMDdash, heq2]
        have h2 : parseMDYslash s = none := by simp [parseMDYslash, hslash]
        have h3 : parseDMYslash s = none := by simp [parseDMYslash, hslash]
        have h4 : parseYMDslash s = none := by simp [parseYMDslash, hslash]
        have h5 : parseMonthDay s = some (natOfDigits ms, natOfDigits ds) := by
          simp [parseMonthDay, heq2, hms, hl1, hds, hl2, hval]
        constructor
        · intro hlt
          simp [parseHeaderDate, h1, h2, h3, h4, h5, resolveMonthDay, hlt]
        · intro hlt
          simp [parseHeaderDate, h1, h2, h3, h4, h5, resolveMonthDay, hlt]
      · exact absurd h (by simp)
    · exact absurd h (by simp)
  · exact absurd h (by simp)

/-- Reference moment 2024-01-05 for the year-wraparound example. -/
def nowJan : Moment :=
  { year := 2024, month := 1, day := 5, tod := 0 }

/-- Witness for C7 at the two specified examples: header `03-15` at
2024-06-01 resolves to 2024-03-15, and header `12-25` at 2024-01-05
wraps to 2023-12-25. -/
theorem c7_month_day_year_resolution_witness :
    parseHeaderDate nowW "03-15" = some { year := 2024, month := 3, day := 15 }
    ∧ parseHeaderDate nowJan "12-25" = some { year := 2023, month := 12, day := 25 } := by
  constructor
  · exact (c7_month_day_year_resolution nowW "03-15" 3 15 (by decide)).2 (by decide)
  · have hres := (c7_month_day_year_resolution nowJan "12-25" 12 25 (by decide)).1
      (by decide)
    simpa [nowJan] using hres

end Fantasy
